import Mathlib

/-!
# Endpoint of the remote transfer bridge

A shallow embedding of `solutions/remote_omega/transfer/end_point.go`.

* Byte slices are lists of bytes, a byte is a `Fin 256`.
* `uint32` values are naturals below `2^32`, `int32` values are integers obtained by the
  two's-complement conversion `int32`.
* A Go call either returns or panics: `Outcome α`.
* Calls into the collaborators of the endpoint (the subscribe socket, the RPC caller, the pool
  factories, `Unmarshal`) are logged as `Event`s, in program order, in the `trace` of a `Run`.
  What a collaborator answers is an argument of the embedded function.
-/

namespace Transfer

/-! ## Go values -/

abbrev Byte := Fin 256

abbrev Bytes := List Byte

/-- Go `error` values that occur in the endpoint. -/
inductive GoError where
  /-- An error carrying only a message (`errors.New`, `fmt.Errorf` without `%w`, errors of the
  socket library). -/
  | errorString (s : String)
  /-- The result of `fmt.Errorf` with one `%w` verb: the formatted message and the wrapped error. -/
  | wrapError (msg : String) (err : GoError)
  /-- A `runtime.Error`, raised by the Go runtime itself, with its full message. -/
  | runtimeError (s : String)
  deriving DecidableEq, Repr

/-- The method `Error()` of an error value. -/
def GoError.Error : GoError → String
  | .errorString s => s
  | .wrapError msg _ => msg
  | .runtimeError s => s

/-- The method `Unwrap()` as seen by `errors.Unwrap`. -/
def GoError.Unwrap : GoError → Option GoError
  | .wrapError _ err => some err
  | _ => none

/-- The value a Go `panic` carries, as `recover()` hands it back. -/
inductive PanicValue where
  /-- A value that implements `error`. With a go directive of 1.21 or later `panic(nil)` is of
  this kind: it carries a `*runtime.PanicNilError`. -/
  | error (e : GoError)
  /-- A value of a dynamic type that does not implement `error`, named by `goType`
  (e.g. `"string"`). -/
  | other (goType : String)
  /-- The nil value: `recover()` returns nil although it stopped a panic. This is `panic(nil)`
  under a go directive below 1.21 or under `GODEBUG=panicnil=1`. -/
  | nilValue
  deriving DecidableEq, Repr

/-- How a Go call ends: it returns a value, or it panics and the panic unwinds into the caller. -/
inductive Outcome (α : Type) where
  | returns (a : α)
  | panics (v : PanicValue)
  deriving DecidableEq, Repr

/-- The conversion `int32(x)` for an unsigned `x`: two's-complement reinterpretation of the low
32 bits. -/
def int32 (x : Nat) : Int :=
  if x % 2 ^ 32 < 2 ^ 31 then (x % 2 ^ 32 : Nat) else ((x % 2 ^ 32 : Nat) : Int) - 2 ^ 32

/-- The conversion `byte(v)`: truncation to the low eight bits. -/
def byte (v : Nat) : Byte := ⟨v % 256, Nat.mod_lt _ (by decide)⟩

/-- Indexing `xs[i]` of a slice: a run-time panic when `i` is out of range. -/
def index {α : Type} (xs : List α) (i : Nat) : Outcome α :=
  match xs.get? i with
  | some x => .returns x
  | none => .panics (.error (.runtimeError
      ("runtime error: index out of range [" ++ toString i ++ "] with length "
        ++ toString xs.length)))

namespace LittleEndian

/-- The function `binary.LittleEndian.Uint32(b)`: it starts with the bounds check `_ = b[3]`,
then combines the first four bytes. -/
def Uint32 (b : Bytes) : Outcome Nat :=
  match b with
  | b0 :: b1 :: b2 :: b3 :: _ =>
      .returns (b0.val ||| b1.val <<< 8 ||| b2.val <<< 16 ||| b3.val <<< 24)
  | _ => .panics (.error (.runtimeError
      ("runtime error: index out of range [3] with length " ++ toString b.length)))

/-- The function `binary.LittleEndian.PutUint32(b, v)` on the fresh slice `make([]byte, 4)`:
the contents of `b` afterwards. -/
def PutUint32 (v : Nat) : Bytes :=
  [byte v, byte (v >>> 8), byte (v >>> 16), byte (v >>> 24)]

end LittleEndian

/-- The bytes of a Go string constant (Go strings are UTF-8). -/
def bytesOf (s : String) : Bytes :=
  (s.data.flatMap String.utf8EncodeChar).map (fun u => byte u.toNat)

/-! ## Collaborators of the endpoint -/

/-- The `protocol.Reader` built by `protocol.NewReader(r, shieldID)`: the bytes still unread in
the underlying buffer and the shield value given at construction. -/
structure Reader where
  r : Bytes
  shieldID : Int
  deriving DecidableEq, Repr

/-- The function `bytes.NewBuffer(buf)`: a buffer whose unread content is `buf`. -/
def NewBuffer (buf : Bytes) : Bytes := buf

/-- The function `protocol.NewReader(r, shieldID)`. -/
def NewReader (r : Bytes) (shieldID : Int) : Reader := ⟨r, shieldID⟩

/-- The `zmq.Msg` delivered by the subscribe socket: its frames. -/
structure Msg where
  Frames : List Bytes
  deriving DecidableEq, Repr

/-- The interface `packet.Packet`, as far as the endpoint uses it, over a type `P` of packet
contents. `goType` is what the verb `%T` prints for the packet. `Unmarshal pkt r` populates the
packet from the reader in place: it returns the populated contents, or it panics. -/
structure Packet (P : Type) where
  goType : P → String
  Unmarshal : P → Reader → Outcome P

/-- The type `packet.Pool`, `map[uint32]func() Packet`: `none` where the map has no entry. -/
abbrev Pool (P : Type) := Nat → Option (Unit → P)

/-- The fields of `Endpoint` that are data. The socket `sub` and the RPC `caller` are the
collaborators whose calls are logged and whose answers are arguments. -/
structure Endpoint (P : Type) where
  pool : Pool P

/-- The calls the endpoint makes into its collaborators. -/
inductive Event (P : Type) where
  /-- The call `e.sub.Recv()`. -/
  | Recv
  /-- The call `e.caller.BlockCallAndGet(nil, api, args)`. -/
  | BlockCallAndGet (api : String) (args : List Bytes)
  /-- The call `e.caller.CallNoResponse(api, args)`. -/
  | CallNoResponse (api : String) (args : List Bytes)
  /-- The call `time.Sleep(d)`, `d` in nanoseconds. -/
  | Sleep (d : Nat)
  /-- The call `e.pool[id]()` of a factory that exists. -/
  | factory (id : Nat)
  /-- The call `pkt.Unmarshal(r)`. -/
  | Unmarshal (pkt : P) (r : Reader)
  /-- The call `ConvertFromRawPacketWithShield(e.pool, data)`. -/
  | ConvertFromRawPacketWithShield (data : Bytes)
  deriving DecidableEq, Repr

/-- A run of a Go function: the calls it made into its collaborators, in order, and how it
ended. -/
structure Run (E α : Type) where
  trace : List E
  outcome : Outcome α
  deriving DecidableEq, Repr

namespace Run

/-- Return without any call. -/
def ret {E α : Type} (a : α) : Run E α := ⟨[], .returns a⟩

/-- Sequencing: a panic of the first part ends the run. -/
def andThen {E α β : Type} (x : Run E α) (f : α → Run E β) : Run E β :=
  match x.outcome with
  | .returns a => ⟨x.trace ++ (f a).trace, (f a).outcome⟩
  | .panics v => ⟨x.trace, .panics v⟩

/-- One logged call that returns nothing of interest. -/
def emit {E : Type} (e : E) : Run E Unit := ⟨[e], .returns ()⟩

/-- A computation that makes no call. -/
def lift {E α : Type} (o : Outcome α) : Run E α := ⟨[], o⟩

instance {E : Type} : Monad (Run E) where
  pure := ret
  bind := andThen

end Run

open LittleEndian

/-! ## The endpoint -/

/-- The time constant `time.Second`, in nanoseconds. -/
def Second : Nat := 1000000000

/-- The method `CheckAccessPointReady`; `ret` is what `BlockCallAndGet(nil, "botReady", nil)`
answers. -/
def CheckAccessPointReady {P : Type} (ret : List Bytes) : Run (Event P) Bool := do
  Run.emit (.BlockCallAndGet "botReady" [])
  if ret.length > 0 && ret.head? == some (bytesOf "botReady") then
    return true
  return false

/-- The method `WaitReady`; `replies n` is what the probe number `n` is answered, and the first
probe has the number `start`. The loop of the source has no bound: `fuel` bounds the number of
probes, and `none` means the probes allowed by `fuel` were all made and the loop is still
running. -/
def WaitReady {P : Type} (replies : Nat → List Bytes) : (fuel : Nat) → (start : Nat) →
    Option (Run (Event P) Unit)
  | 0, _ => none
  | fuel + 1, start =>
    let probe : Run (Event P) Bool := CheckAccessPointReady (replies start)
    match probe.outcome with
    | .panics v => some ⟨probe.trace, .panics v⟩
    | .returns true => some ⟨probe.trace, .returns ()⟩
    | .returns false =>
      match WaitReady replies fuel (start + 1) with
      | none => none
      | some rest => some ⟨probe.trace ++ Event.Sleep (Second / 10) :: rest.trace, rest.outcome⟩

/-- The method `GetShieldID`; `shieldIDBytes` is what
`BlockCallAndGet(nil, "getConnShieldID", nil)` answers. -/
def GetShieldID {P : Type} (shieldIDBytes : List Bytes) : Run (Event P) Int := do
  Run.emit (.BlockCallAndGet "getConnShieldID" [])
  let b ← Run.lift (index shieldIDBytes 0)
  let u ← Run.lift (Uint32 b)
  return int32 u

/-- The method `SendPacketData`. -/
def SendPacketData {P : Type} (pktID : Nat) (data : Bytes) : Run (Event P) Unit := do
  let packetIDBytes := PutUint32 pktID
  Run.emit (.CallNoResponse "sendPacketBytes" [packetIDBytes, data])

/-- The method `RecvPacket`; `recv` is what `e.sub.Recv()` answers, and `convert` is the function
`ConvertFromRawPacketWithShield`, which is defined in another file of the package. -/
def RecvPacket {P : Type} (convert : Pool P → Bytes → Outcome (Option P)) (e : Endpoint P)
    (recv : Msg × Option GoError) : Run (Event P) (Option P × Int × Option GoError) := do
  Run.emit .Recv
  let (msg, err) := recv
  match err with
  | some err => return (none, 0, some err)
  | none =>
    let shieldIDBytes ← Run.lift (index msg.Frames 2)
    let shieldID := int32 (← Run.lift (Uint32 shieldIDBytes))
    let data ← Run.lift (index msg.Frames 1)
    Run.emit (.ConvertFromRawPacketWithShield data)
    let pk ← Run.lift (convert e.pool data)
    return (pk, shieldID, none)

/-- The type assertion `recoveredErr.(error)`: a run-time panic of its own when the recovered
value does not implement `error` or is nil. -/
def assertError (recoveredErr : PanicValue) : Outcome GoError :=
  match recoveredErr with
  | .error e => .returns e
  | .other goType => .panics (.error (.runtimeError
      ("interface conversion: " ++ goType ++ " is not error: missing method Error")))
  | .nilValue => .panics (.error (.runtimeError
      "interface conversion: interface {} is nil, not error"))

/-- The function `safeDecode`. The body runs `pkt.Unmarshal(r)` and returns `pkt, nil`. When
the body panics, the call `recover()` of the deferred function stops the panic, and the named
results `p` and `err` still have their zero value `nil`. Under the guard `recoveredErr != nil`
the deferred function asserts the recovered value to `error` and sets `err`; when the recovered
value is nil the guard fails and the results stay `nil, nil`. -/
def safeDecode {P : Type} (I : Packet P) (pkt : P) (r : Reader) :
    Run (Event P) (Option P × Option GoError) :=
  let body : Run (Event P) (Option P × Option GoError) := do
    Run.emit (.Unmarshal pkt r)
    let pkt ← Run.lift (I.Unmarshal pkt r)
    return (some pkt, none)
  match body.outcome with
  | .returns res => ⟨body.trace, .returns res⟩
  | .panics recoveredErr =>
    if recoveredErr ≠ .nilValue then
      match assertError recoveredErr with
      | .returns cause =>
        ⟨body.trace,
          .returns (none, some (.wrapError (I.goType pkt ++ ": " ++ cause.Error) cause))⟩
      | .panics v => ⟨body.trace, .panics v⟩
    else
      ⟨body.trace, .returns (none, none)⟩

/-- The call `pool[packetID]()`: calling the nil function a map gives for a missing key is a
nil dereference. -/
def callFactory {P : Type} (pool : Pool P) (packetID : Nat) : Run (Event P) P :=
  match pool packetID with
  | some f => do
    Run.emit (.factory packetID)
    return f ()
  | none => Run.lift (.panics (.error (.runtimeError
      "runtime error: invalid memory address or nil pointer dereference")))

/-- The method `RecvDirectPacket`; `recv` is what `e.sub.Recv()` answers. The conversion
`int(dataLen)` keeps the value: `int` has 64 bits. -/
def RecvDirectPacket {P : Type} (I : Packet P) (e : Endpoint P) (recv : Msg × Option GoError) :
    Run (Event P) (Option P × Int × Option GoError) := do
  Run.emit .Recv
  let (msg, err) := recv
  match err with
  | some err => return (none, 0, some err)
  | none =>
    let shieldIDBytes ← Run.lift (index msg.Frames 1)
    let packetIDBytes ← Run.lift (index msg.Frames 2)
    let packetData ← Run.lift (index msg.Frames 3)
    let dataLenBytes ← Run.lift (index msg.Frames 4)
    let shieldID := int32 (← Run.lift (Uint32 shieldIDBytes))
    let packetID ← Run.lift (Uint32 packetIDBytes)
    let dataLen ← Run.lift (Uint32 dataLenBytes)
    if dataLen ≠ packetData.length then
      return (none, 0, some (.errorString
        ("len mismatch " ++ toString dataLen ++ "!=" ++ toString packetData.length ++ "\n")))
    let reader := NewBuffer packetData
    let r := NewReader reader shieldID
    let pkt ← callFactory e.pool packetID
    let (pkt, err) ← safeDecode I pkt r
    match err with
    | some err => return (none, 0, some err)
    | none => return (pkt, shieldID, none)

/-! ## Reference notions of the specification -/

/-- The little-endian value of four bytes, as the specification words it. -/
def le32 (b0 b1 b2 b3 : Byte) : Nat :=
  b0.val + 2 ^ 8 * b1.val + 2 ^ 16 * b2.val + 2 ^ 24 * b3.val

/-- The signed reading of an unsigned 32-bit value: the value minus `2^32` when it is at least
`2^31`. -/
def signed32 (u : Nat) : Int :=
  if 2 ^ 31 ≤ u then (u : Int) - 2 ^ 32 else (u : Int)

/-- The calls of a readiness handshake that succeeds at its probe number `k` (counted from 0):
`k` probes each followed by the sleep of a tenth of a second, then the last probe. -/
def probeTrace {P : Type} : Nat → List (Event P)
  | 0 => [.BlockCallAndGet "botReady" []]
  | k + 1 => .BlockCallAndGet "botReady" [] :: .Sleep 100000000 :: probeTrace k

/-! ## Sample packets, used to run the endpoint on concrete frames -/

/-- The contents of a sample packet: the bytes it read and the shield value of its reader. -/
structure SamplePacket where
  body : Bytes
  shield : Int
  deriving DecidableEq, Repr

/-- A sample implementation of `packet.Packet`. Its `Unmarshal` panics with an error value on
an empty payload, panics with a string on a payload that starts with `0xFF`, panics with nil on
a payload that starts with `0xFD`, and stores the payload otherwise. -/
def samplePacket : Packet SamplePacket where
  goType _ := "*packet.Sample"
  Unmarshal _ r :=
    match r.r with
    | [] => .panics (.error (.errorString "unexpected EOF"))
    | 0xFF :: _ => .panics (.other "string")
    | 0xFD :: _ => .panics .nilValue
    | bs => .returns ⟨bs, r.shieldID⟩

/-- An endpoint whose pool has the single packet-type id 9. -/
def sampleEndpoint : Endpoint SamplePacket where
  pool := fun id => if id = 9 then some (fun _ => ⟨[], 0⟩) else none

/-! ## Lemmas on the byte order functions -/

theorem or_shift_eq_sum (a b c d : Nat) (ha : a < 256) (hb : b < 256) (hc : c < 256) :
    (a ||| b <<< 8 ||| c <<< 16 ||| d <<< 24) = a + 2 ^ 8 * b + 2 ^ 16 * c + 2 ^ 24 * d := by
  have h1 : a ||| b <<< 8 = 2 ^ 8 * b + a := by
    rw [Nat.or_comm, Nat.shiftLeft_eq, Nat.mul_comm]
    exact (Nat.mul_add_lt_is_or (by simpa using ha) b).symm
  have h2 : (2 ^ 8 * b + a) ||| c <<< 16 = 2 ^ 16 * c + (2 ^ 8 * b + a) := by
    rw [Nat.or_comm, Nat.shiftLeft_eq, Nat.mul_comm]
    exact (Nat.mul_add_lt_is_or (by omega) c).symm
  have h3 : (2 ^ 16 * c + (2 ^ 8 * b + a)) ||| d <<< 24
      = 2 ^ 24 * d + (2 ^ 16 * c + (2 ^ 8 * b + a)) := by
    rw [Nat.or_comm, Nat.shiftLeft_eq, Nat.mul_comm]
    exact (Nat.mul_add_lt_is_or (by omega) d).symm
  rw [h1, h2, h3]; omega

theorem Uint32_four (b0 b1 b2 b3 : Byte) (rest : Bytes) :
    Uint32 (b0 :: b1 :: b2 :: b3 :: rest) = .returns (le32 b0 b1 b2 b3) := by
  simp only [Uint32, le32]
  rw [or_shift_eq_sum _ _ _ _ b0.isLt b1.isLt b2.isLt]

theorem le32_lt (b0 b1 b2 b3 : Byte) : le32 b0 b1 b2 b3 < 2 ^ 32 := by
  have h0 := b0.isLt; have h1 := b1.isLt; have h2 := b2.isLt; have h3 := b3.isLt
  simp only [le32]; omega

theorem int32_eq_signed32 (u : Nat) (h : u < 2 ^ 32) : int32 u = signed32 u := by
  simp only [int32, signed32, Nat.mod_eq_of_lt h]
  split <;> split <;> omega

theorem le32_PutUint32 (v : Nat) (h : v < 2 ^ 32) :
    le32 (byte v) (byte (v >>> 8)) (byte (v >>> 16)) (byte (v >>> 24)) = v := by
  simp only [le32, byte, Nat.shiftRight_eq_div_pow]
  omega

/-! ## Lemmas on `safeDecode`, the factory call and the frame layout -/

theorem safeDecode_of_returns {P : Type} (I : Packet P) (pkt pkt' : P) (r : Reader)
    (h : I.Unmarshal pkt r = .returns pkt') :
    safeDecode I pkt r = ⟨[.Unmarshal pkt r], .returns (some pkt', none)⟩ := by
  simp [safeDecode, bind, pure, Run.andThen, Run.emit, Run.lift, Run.ret, h]

theorem safeDecode_of_error {P : Type} (I : Packet P) (pkt : P) (r : Reader) (c : GoError)
    (h : I.Unmarshal pkt r = .panics (.error c)) :
    safeDecode I pkt r
      = ⟨[.Unmarshal pkt r],
          .returns (none, some (.wrapError (I.goType pkt ++ ": " ++ c.Error) c))⟩ := by
  simp [safeDecode, bind, pure, Run.andThen, Run.emit, Run.lift, Run.ret, h, assertError]

theorem safeDecode_of_other {P : Type} (I : Packet P) (pkt : P) (r : Reader) (goType : String)
    (h : I.Unmarshal pkt r = .panics (.other goType)) :
    safeDecode I pkt r
      = ⟨[.Unmarshal pkt r], .panics (.error (.runtimeError
          ("interface conversion: " ++ goType ++ " is not error: missing method Error")))⟩ := by
  simp [safeDecode, bind, pure, Run.andThen, Run.emit, Run.lift, Run.ret, h, assertError]

theorem safeDecode_of_nilValue {P : Type} (I : Packet P) (pkt : P) (r : Reader)
    (h : I.Unmarshal pkt r = .panics .nilValue) :
    safeDecode I pkt r = ⟨[.Unmarshal pkt r], .returns (none, none)⟩ := by
  simp [safeDecode, bind, pure, Run.andThen, Run.emit, Run.lift, Run.ret, h]

theorem callFactory_of_some {P : Type} (pool : Pool P) (id : Nat) (f : Unit → P)
    (h : pool id = some f) : callFactory pool id = ⟨[.factory id], .returns (f ())⟩ := by
  simp [callFactory, h, bind, pure, Run.andThen, Run.emit, Run.ret]

theorem callFactory_of_none {P : Type} (pool : Pool P) (id : Nat) (h : pool id = none) :
    callFactory pool id
      = ⟨[], .panics (.error (.runtimeError
          "runtime error: invalid memory address or nil pointer dereference"))⟩ := by
  simp [callFactory, h, Run.lift]

/-- The run of `RecvDirectPacket` on a message of at least five frames whose frames 1, 2 and 4
have at least four bytes: the length check, then the factory call and `safeDecode`. -/
theorem RecvDirectPacket_frames {P : Type} (I : Packet P) (e : Endpoint P)
    (topic payload sr tr nr : Bytes) (s0 s1 s2 s3 t0 t1 t2 t3 n0 n1 n2 n3 : Byte)
    (more : List Bytes) :
    RecvDirectPacket I e
      (⟨topic :: (s0 :: s1 :: s2 :: s3 :: sr) :: (t0 :: t1 :: t2 :: t3 :: tr) :: payload
          :: (n0 :: n1 :: n2 :: n3 :: nr) :: more⟩, none)
    = if le32 n0 n1 n2 n3 ≠ payload.length then
        ⟨[.Recv], .returns (none, 0, some (.errorString
          ("len mismatch " ++ toString (le32 n0 n1 n2 n3) ++ "!=" ++ toString payload.length
            ++ "\n")))⟩
      else
        Run.andThen (Run.emit .Recv) fun _ =>
        Run.andThen (callFactory e.pool (le32 t0 t1 t2 t3)) fun pkt =>
        Run.andThen (safeDecode I pkt (NewReader payload (int32 (le32 s0 s1 s2 s3)))) fun res =>
          match res.2 with
          | some err => Run.ret (none, 0, some err)
          | none => Run.ret (res.1, int32 (le32 s0 s1 s2 s3), none) := by
  simp only [RecvDirectPacket, bind, pure, index, List.get?, Uint32_four, Run.andThen, Run.emit,
    Run.lift, Run.ret, NewBuffer]
  split <;> simp

/-- The run of `RecvDirectPacket` when `Unmarshal` panics with nil and `recover()` hands back
nil: the guard of the deferred function fails, `safeDecode` returns `nil, nil`, and the frame is
reported with a nil packet, its shield id and a nil error. -/
theorem RecvDirectPacket_of_nilValue {P : Type} (I : Packet P) (e : Endpoint P)
    (topic payload : Bytes) (s0 s1 s2 s3 t0 t1 t2 t3 n0 n1 n2 n3 : Byte) (f : Unit → P)
    (hlen : le32 n0 n1 n2 n3 = payload.length)
    (hkey : e.pool (le32 t0 t1 t2 t3) = some f)
    (hU : I.Unmarshal (f ()) ⟨payload, signed32 (le32 s0 s1 s2 s3)⟩ = .panics .nilValue) :
    RecvDirectPacket I e
      (⟨[topic, [s0, s1, s2, s3], [t0, t1, t2, t3], payload, [n0, n1, n2, n3]]⟩, none)
    = ⟨[.Recv, .factory (le32 t0 t1 t2 t3),
          .Unmarshal (f ()) ⟨payload, signed32 (le32 s0 s1 s2 s3)⟩],
        .returns (none, signed32 (le32 s0 s1 s2 s3), none)⟩ := by
  rw [← int32_eq_signed32 _ (le32_lt s0 s1 s2 s3)] at hU ⊢
  rw [RecvDirectPacket_frames, if_neg (by simpa using hlen), callFactory_of_some _ _ f hkey]
  simp [Run.andThen, Run.emit, Run.ret, NewReader, safeDecode_of_nilValue I _ _ hU]

theorem RecvDirectPacket_nilValue_sample :
    RecvDirectPacket samplePacket sampleEndpoint
      (⟨[bytesOf "packet", [1, 0, 0, 0], [9, 0, 0, 0], [0xFD], [1, 0, 0, 0]]⟩, none)
    = ⟨[.Recv, .factory 9, .Unmarshal ⟨[], 0⟩ ⟨[0xFD], 1⟩], .returns (none, 1, none)⟩ := by
  decide

/-! ## Lemmas on the readiness handshake -/

theorem CheckAccessPointReady_run {P : Type} (ret : List Bytes) :
    (CheckAccessPointReady ret : Run (Event P) Bool)
      = ⟨[.BlockCallAndGet "botReady" []],
          .returns (decide (ret.head? = some (bytesOf "botReady")))⟩ := by
  cases ret with
  | nil => simp [CheckAccessPointReady, bind, pure, Run.andThen, Run.emit, Run.ret]
  | cons first rest =>
    by_cases h : first = bytesOf "botReady" <;>
      simp [CheckAccessPointReady, bind, pure, Run.andThen, Run.emit, Run.ret, h]

theorem WaitReady_sound {P : Type} (replies : Nat → List Bytes) :
    ∀ (fuel start : Nat) (run : Run (Event P) Unit), WaitReady replies fuel start = some run →
      ∃ k, k < fuel ∧ (replies (start + k)).head? = some (bytesOf "botReady") ∧
        (∀ j, j < k → (replies (start + j)).head? ≠ some (bytesOf "botReady")) ∧
        run = ⟨probeTrace k, .returns ()⟩ := by
  intro fuel
  induction fuel with
  | zero => intro start run h; simp [WaitReady] at h
  | succ fuel ih =>
    intro start run h
    by_cases hr : (replies start).head? = some (bytesOf "botReady")
    · refine ⟨0, by omega, by simpa using hr, by intro j hj; omega, ?_⟩
      simp [WaitReady, CheckAccessPointReady_run, hr] at h
      rw [← h]; rfl
    · simp only [WaitReady, CheckAccessPointReady_run, hr, decide_False] at h
      cases hrest : WaitReady (P := P) replies fuel (start + 1) with
      | none => simp [hrest] at h
      | some rest =>
        simp only [hrest, Option.some.injEq] at h
        obtain ⟨k, hk, hready, hmin, hrun⟩ := ih (start + 1) rest hrest
        refine ⟨k + 1, by omega, ?_, ?_, ?_⟩
        · rw [show start + (k + 1) = start + 1 + k by omega]; exact hready
        · intro j hj
          cases j with
          | zero => simpa using hr
          | succ j =>
            rw [show start + (j + 1) = start + 1 + j by omega]
            exact hmin j (by omega)
        · rw [← h, hrun]; simp [probeTrace, Second]

theorem WaitReady_complete {P : Type} (replies : Nat → List Bytes) :
    ∀ (fuel start k : Nat), (replies (start + k)).head? = some (bytesOf "botReady") → k < fuel →
      ∃ run : Run (Event P) Unit, WaitReady replies fuel start = some run := by
  intro fuel
  induction fuel with
  | zero => intro start k _ hk; omega
  | succ fuel ih =>
    intro start k hready hk
    by_cases hr : (replies start).head? = some (bytesOf "botReady")
    · exact ⟨_, by simp [WaitReady, CheckAccessPointReady_run, hr]; rfl⟩
    · cases k with
      | zero => exact absurd (by simpa using hready) hr
      | succ k =>
        obtain ⟨rest, hrest⟩ := ih (start + 1) k
          (by rw [show start + 1 + k = start + (k + 1) by omega]; exact hready) (by omega)
        refine ⟨⟨[.BlockCallAndGet "botReady" []] ++ .Sleep (Second / 10) :: rest.trace,
          rest.outcome⟩, ?_⟩
        simp only [WaitReady, CheckAccessPointReady_run, hr, decide_False, hrest]

/-! ## The claims -/

/-- C1, the failing input: the `Unmarshal` of the sample packet panics with a string on the
payload `[0xFF]`, and `safeDecode` does not return there. The deferred function recovers the
string, its unchecked type assertion to `error` panics, and that second panic reaches the caller
of `safeDecode`. -/
theorem safeDecode_string_panic_propagates :
    samplePacket.Unmarshal ⟨[], 0⟩ ⟨[0xFF], 7⟩ = .panics (.other "string") ∧
    safeDecode samplePacket ⟨[], 0⟩ ⟨[0xFF], 7⟩
      = ⟨[.Unmarshal ⟨[], 0⟩ ⟨[0xFF], 7⟩], .panics (.error (.runtimeError
          "interface conversion: string is not error: missing method Error"))⟩ := by
  decide

/-- C2: `RecvDirectPacket` rejects every length mismatch. For every received frame
`[topic, shield, typeID, payload, payloadLen]` with 4-byte `shield`, `typeID` and `payloadLen`
whose `payloadLen`, read little-endian, differs from the length of `payload`, the call returns a
nil packet and a non-nil error, and its only call into a collaborator is the receive: neither a
pool factory nor `Unmarshal` is invoked. -/
theorem RecvDirectPacket_rejects_length_mismatch {P : Type} (I : Packet P) (e : Endpoint P)
    (topic payload : Bytes) (s0 s1 s2 s3 t0 t1 t2 t3 n0 n1 n2 n3 : Byte)
    (h : le32 n0 n1 n2 n3 ≠ payload.length) :
    ∃ err : GoError,
      RecvDirectPacket I e
        (⟨[topic, [s0, s1, s2, s3], [t0, t1, t2, t3], payload, [n0, n1, n2, n3]]⟩, none)
      = ⟨[.Recv], .returns (none, 0, some err)⟩ := by
  rw [RecvDirectPacket_frames, if_pos h]
  exact ⟨_, rfl⟩

theorem RecvDirectPacket_rejects_length_mismatch_witness :
    le32 2 0 0 0 ≠ ([7] : Bytes).length ∧
    ∃ err : GoError,
      RecvDirectPacket samplePacket sampleEndpoint
        (⟨[bytesOf "packet", [1, 0, 0, 0], [9, 0, 0, 0], [7], [2, 0, 0, 0]]⟩, none)
      = ⟨[.Recv], .returns (none, 0, some err)⟩ :=
  ⟨by decide,
    RecvDirectPacket_rejects_length_mismatch samplePacket sampleEndpoint (bytesOf "packet") [7]
      1 0 0 0 9 0 0 0 2 0 0 0 (by decide)⟩

/-- C3, as amended: for every received frame `[topic, shield, typeID, payload, payloadLen]`
with 4-byte `shield`, `typeID` and `payloadLen` and a consistent payload length whose packet-type
id is not a key of the pool, `RecvDirectPacket` returns neither a packet nor an error: the
unchecked call through the missing factory panics with a nil dereference, the panic reaches the
caller, and `Unmarshal` is not invoked. -/
theorem RecvDirectPacket_unknown_type_panics {P : Type} (I : Packet P) (e : Endpoint P)
    (topic payload : Bytes) (s0 s1 s2 s3 t0 t1 t2 t3 n0 n1 n2 n3 : Byte)
    (hlen : le32 n0 n1 n2 n3 = payload.length) (hkey : e.pool (le32 t0 t1 t2 t3) = none) :
    RecvDirectPacket I e
      (⟨[topic, [s0, s1, s2, s3], [t0, t1, t2, t3], payload, [n0, n1, n2, n3]]⟩, none)
    = ⟨[.Recv], .panics (.error (.runtimeError
        "runtime error: invalid memory address or nil pointer dereference"))⟩ := by
  rw [RecvDirectPacket_frames, if_neg (by simpa using hlen), callFactory_of_none _ _ hkey]
  rfl

theorem RecvDirectPacket_unknown_type_panics_witness :
    le32 1 0 0 0 = ([7] : Bytes).length ∧ sampleEndpoint.pool (le32 8 0 0 0) = none ∧
    RecvDirectPacket samplePacket sampleEndpoint
      (⟨[bytesOf "packet", [1, 0, 0, 0], [8, 0, 0, 0], [7], [1, 0, 0, 0]]⟩, none)
    = ⟨[.Recv], .panics (.error (.runtimeError
        "runtime error: invalid memory address or nil pointer dereference"))⟩ :=
  ⟨by decide, by decide,
    RecvDirectPacket_unknown_type_panics samplePacket sampleEndpoint (bytesOf "packet") [7]
      1 0 0 0 8 0 0 0 1 0 0 0 (by decide) (by decide)⟩

/-- C3, counterexample: the pool of the sample endpoint has no entry for the id 3, and on a frame
with that id and a consistent payload length `RecvDirectPacket` returns no error: it panics. -/
theorem RecvDirectPacket_unknown_type_no_error :
    sampleEndpoint.pool 3 = none ∧
    (RecvDirectPacket samplePacket sampleEndpoint
      (⟨[bytesOf "packet", [5, 0, 0, 0], [3, 0, 0, 0], [7, 7], [2, 0, 0, 0]]⟩, none)).outcome
    = .panics (.error (.runtimeError
        "runtime error: invalid memory address or nil pointer dereference")) := by
  decide

/-- C4, as amended: for every message delivered by the broadcast channel that has at least five
segments, whose shield-id, packet-type-id and payload-length segments have at least four bytes,
and for which, when the payload length is consistent, the packet-type id is a key of the pool and
`Unmarshal` either returns or panics with a value that implements `error`, `RecvDirectPacket`
returns normally with either a packet or an error. -/
theorem RecvDirectPacket_returns_on_wellformed {P : Type} (I : Packet P) (e : Endpoint P)
    (topic payload sr tr nr : Bytes) (s0 s1 s2 s3 t0 t1 t2 t3 n0 n1 n2 n3 : Byte)
    (more : List Bytes)
    (h : le32 n0 n1 n2 n3 = payload.length →
      ∃ f, e.pool (le32 t0 t1 t2 t3) = some f ∧
        ∀ v, I.Unmarshal (f ()) (NewReader payload (int32 (le32 s0 s1 s2 s3))) = .panics v →
          ∃ c, v = .error c) :
    ∃ (pk : Option P) (shieldID : Int) (err : Option GoError),
      (RecvDirectPacket I e
        (⟨topic :: (s0 :: s1 :: s2 :: s3 :: sr) :: (t0 :: t1 :: t2 :: t3 :: tr) :: payload
            :: (n0 :: n1 :: n2 :: n3 :: nr) :: more⟩, none)).outcome
        = .returns (pk, shieldID, err) ∧
      ((pk ≠ none ∧ err = none) ∨ (pk = none ∧ err ≠ none)) := by
  rw [RecvDirectPacket_frames]
  by_cases hlen : le32 n0 n1 n2 n3 = payload.length
  · obtain ⟨f, hf, hU⟩ := h hlen
    rw [if_neg (by simpa using hlen), callFactory_of_some _ _ f hf]
    cases hres : I.Unmarshal (f ()) (NewReader payload (int32 (le32 s0 s1 s2 s3))) with
    | returns pkt' =>
      refine ⟨some pkt', int32 (le32 s0 s1 s2 s3), none, ?_, Or.inl ⟨by simp, rfl⟩⟩
      simp [Run.andThen, Run.emit, Run.ret, safeDecode_of_returns I _ _ _ hres]
    | panics v =>
      obtain ⟨c, hc⟩ := hU v hres
      subst hc
      refine ⟨none, 0, some (.wrapError (I.goType (f ()) ++ ": " ++ c.Error) c), ?_,
        Or.inr ⟨rfl, by simp⟩⟩
      simp [Run.andThen, Run.emit, Run.ret, safeDecode_of_error I _ _ _ hres]
  · rw [if_pos hlen]
    exact ⟨none, 0, _, rfl, Or.inr ⟨rfl, by simp⟩⟩

theorem RecvDirectPacket_returns_on_wellformed_witness :
    ∃ (pk : Option SamplePacket) (shieldID : Int) (err : Option GoError),
      (RecvDirectPacket samplePacket sampleEndpoint
        (⟨[bytesOf "packet", [1, 0, 0, 0, 5], [9, 0, 0, 0], [7], [1, 0, 0, 0],
            [4]]⟩, none)).outcome
        = .returns (pk, shieldID, err) ∧
      ((pk ≠ none ∧ err = none) ∨ (pk = none ∧ err ≠ none)) :=
  RecvDirectPacket_returns_on_wellformed samplePacket sampleEndpoint (bytesOf "packet") [7]
    [5] [] [] 1 0 0 0 9 0 0 0 1 0 0 0 [[4]]
    (fun _ => ⟨fun _ => ⟨[], 0⟩, by decide, fun v hv => by simp [samplePacket, NewReader] at hv⟩)

/-- C4, counterexample: on a delivered message of four segments `RecvDirectPacket` does not
return: reading the fifth segment panics. -/
theorem RecvDirectPacket_short_message_panics :
    (RecvDirectPacket samplePacket sampleEndpoint
      (⟨[bytesOf "packet", [1, 0, 0, 0], [9, 0, 0, 0], [7]]⟩, none)).outcome
    = .panics (.error (.runtimeError
        "runtime error: index out of range [4] with length 4")) := by
  decide

/-- C5: `GetShieldID` decodes the reply as a signed little-endian 32-bit integer. For every
reply whose single segment is the four bytes `b0, b1, b2, b3` the result is the signed reading
of `b0 + 2^8*b1 + 2^16*b2 + 2^24*b3`; the reply `[0x01,0x00,0x00,0x00]` gives `1` and
`[0xFF,0xFF,0xFF,0xFF]` gives `-1`. -/
theorem GetShieldID_signed_little_endian {P : Type} (b0 b1 b2 b3 : Byte) :
    (GetShieldID [[b0, b1, b2, b3]] : Run (Event P) Int).outcome
      = .returns (signed32 (le32 b0 b1 b2 b3)) ∧
    (GetShieldID [[0x01, 0x00, 0x00, 0x00]] : Run (Event P) Int).outcome = .returns 1 ∧
    (GetShieldID [[0xFF, 0xFF, 0xFF, 0xFF]] : Run (Event P) Int).outcome = .returns (-1) := by
  have key : ∀ c0 c1 c2 c3 : Byte, (GetShieldID [[c0, c1, c2, c3]] : Run (Event P) Int).outcome
      = .returns (signed32 (le32 c0 c1 c2 c3)) := by
    intro c0 c1 c2 c3
    simp [GetShieldID, bind, pure, index, Uint32_four, Run.andThen, Run.emit, Run.lift, Run.ret,
      int32_eq_signed32 _ (le32_lt c0 c1 c2 c3)]
  refine ⟨key _ _ _ _, ?_, ?_⟩
  · rw [key]; decide
  · rw [key]; decide

/-- C6, as amended: readiness requires a reply whose first frame is exactly `"botReady"`.
`CheckAccessPointReady` returns true when the reply is non-empty and its first frame is exactly
the bytes of `"botReady"`, whatever frames follow, and false for every other reply. For every
sequence of replies, when `WaitReady` returns it has made the calls `probeTrace k` for a probe
number `k` whose reply has the first frame `"botReady"`, no earlier reply having it; and when
some reply below the fuel has that first frame, `WaitReady` does return. -/
theorem WaitReady_returns_after_botReady {P : Type} (replies : Nat → List Bytes) (fuel : Nat) :
    (∀ ret : List Bytes, (CheckAccessPointReady ret : Run (Event P) Bool).outcome
        = .returns (decide (ret.head? = some (bytesOf "botReady")))) ∧
    (∀ run : Run (Event P) Unit, WaitReady replies fuel 0 = some run →
      ∃ k, k < fuel ∧ (replies k).head? = some (bytesOf "botReady") ∧
        (∀ j, j < k → (replies j).head? ≠ some (bytesOf "botReady")) ∧
        run = ⟨probeTrace k, .returns ()⟩) ∧
    (∀ k, (replies k).head? = some (bytesOf "botReady") → k < fuel →
      ∃ run : Run (Event P) Unit, WaitReady replies fuel 0 = some run) := by
  refine ⟨fun ret => by rw [CheckAccessPointReady_run], ?_, ?_⟩
  · intro run h
    obtain ⟨k, hk, hready, hmin, hrun⟩ := WaitReady_sound replies fuel 0 run h
    exact ⟨k, hk, by simpa using hready, fun j hj => by simpa using hmin j hj, hrun⟩
  · intro k hready hk
    exact WaitReady_complete replies fuel 0 k (by simpa using hready) hk

theorem WaitReady_returns_after_botReady_witness :
    (∃ k, k < 5 ∧
      ((fun n => if n = 2 then [bytesOf "botReady"] else []) k).head?
        = some (bytesOf "botReady") ∧
      (∀ j, j < k → ((fun n => if n = 2 then [bytesOf "botReady"] else []) j).head?
        ≠ some (bytesOf "botReady")) ∧
      (⟨probeTrace 2, .returns ()⟩ : Run (Event SamplePacket) Unit)
        = ⟨probeTrace k, .returns ()⟩) ∧
    ∃ run : Run (Event SamplePacket) Unit,
      WaitReady (fun n => if n = 2 then [bytesOf "botReady"] else []) 5 0 = some run :=
  ⟨(WaitReady_returns_after_botReady (fun n => if n = 2 then [bytesOf "botReady"] else [])
      5).2.1 ⟨probeTrace 2, .returns ()⟩ (by decide),
    (WaitReady_returns_after_botReady (fun n => if n = 2 then [bytesOf "botReady"] else [])
      5).2.2 2 (by decide) (by decide)⟩

/-- C6, counterexample: a reply of two frames, `"botReady"` followed by another frame, is not
the sole reply `"botReady"`, and `CheckAccessPointReady` returns true for it. -/
theorem CheckAccessPointReady_accepts_additional_frames :
    [bytesOf "botReady", bytesOf "x"] ≠ [bytesOf "botReady"] ∧
    (CheckAccessPointReady [bytesOf "botReady", bytesOf "x"]
      : Run (Event SamplePacket) Bool).outcome = .returns true := by
  decide

/-- C7: the success path of `RecvDirectPacket`. For every received frame
`[topic, shield, typeID, payload, payloadLen]` with 4-byte `shield`, `typeID` and `payloadLen`
in which `payloadLen` decodes little-endian to the length of `payload`, `typeID` decodes to a
key of the pool, and `Unmarshal` of the packet made by that key's factory, on a reader over the
payload bytes with the frame's shield value, returns: `RecvDirectPacket` calls the receive, that
factory and that `Unmarshal`, and returns the populated packet, the signed little-endian value
of the shield segment and a nil error. -/
theorem RecvDirectPacket_success {P : Type} (I : Packet P) (e : Endpoint P)
    (topic payload : Bytes) (s0 s1 s2 s3 t0 t1 t2 t3 n0 n1 n2 n3 : Byte)
    (f : Unit → P) (pkt' : P)
    (hlen : le32 n0 n1 n2 n3 = payload.length)
    (hkey : e.pool (le32 t0 t1 t2 t3) = some f)
    (hU : I.Unmarshal (f ()) ⟨payload, signed32 (le32 s0 s1 s2 s3)⟩ = .returns pkt') :
    RecvDirectPacket I e
      (⟨[topic, [s0, s1, s2, s3], [t0, t1, t2, t3], payload, [n0, n1, n2, n3]]⟩, none)
    = ⟨[.Recv, .factory (le32 t0 t1 t2 t3),
          .Unmarshal (f ()) ⟨payload, signed32 (le32 s0 s1 s2 s3)⟩],
        .returns (some pkt', signed32 (le32 s0 s1 s2 s3), none)⟩ := by
  rw [← int32_eq_signed32 _ (le32_lt s0 s1 s2 s3)] at hU ⊢
  rw [RecvDirectPacket_frames, if_neg (by simpa using hlen), callFactory_of_some _ _ f hkey]
  simp [Run.andThen, Run.emit, Run.ret, NewReader, safeDecode_of_returns I _ _ _ hU]

theorem RecvDirectPacket_success_witness :
    RecvDirectPacket samplePacket sampleEndpoint
      (⟨[bytesOf "packet", [0xFE, 0xFF, 0xFF, 0xFF], [9, 0, 0, 0], [7, 8], [2, 0, 0, 0]]⟩, none)
    = ⟨[.Recv, .factory (le32 9 0 0 0),
          .Unmarshal ⟨[], 0⟩ ⟨[7, 8], signed32 (le32 0xFE 0xFF 0xFF 0xFF)⟩],
        .returns (some ⟨[7, 8], -2⟩, signed32 (le32 0xFE 0xFF 0xFF 0xFF), none)⟩ :=
  RecvDirectPacket_success samplePacket sampleEndpoint (bytesOf "packet") [7, 8]
    0xFE 0xFF 0xFF 0xFF 9 0 0 0 2 0 0 0 (fun _ => ⟨[], 0⟩) ⟨[7, 8], -2⟩
    (by decide) (by decide) (by decide)

/-- C8: the framing of `SendPacketData`. For every packet-type id below `2^32` and every
payload, `SendPacketData` makes exactly one call, the fire-and-forget call `"sendPacketBytes"`,
with exactly two argument segments: four bytes whose little-endian value is the id, then the
payload unchanged. -/
theorem SendPacketData_framing {P : Type} (pktID : Nat) (data : Bytes) (h : pktID < 2 ^ 32) :
    ∃ b0 b1 b2 b3 : Byte,
      (SendPacketData pktID data : Run (Event P) Unit)
        = ⟨[.CallNoResponse "sendPacketBytes" [[b0, b1, b2, b3], data]], .returns ()⟩ ∧
      le32 b0 b1 b2 b3 = pktID ∧ Uint32 [b0, b1, b2, b3] = .returns pktID := by
  refine ⟨byte pktID, byte (pktID >>> 8), byte (pktID >>> 16), byte (pktID >>> 24), rfl,
    le32_PutUint32 pktID h, ?_⟩
  rw [Uint32_four, le32_PutUint32 pktID h]

theorem SendPacketData_framing_witness :
    ∃ b0 b1 b2 b3 : Byte,
      (SendPacketData 0x01020304 [7, 8] : Run (Event SamplePacket) Unit)
        = ⟨[.CallNoResponse "sendPacketBytes" [[b0, b1, b2, b3], [7, 8]]], .returns ()⟩ ∧
      le32 b0 b1 b2 b3 = 0x01020304 ∧ Uint32 [b0, b1, b2, b3] = .returns 0x01020304 :=
  SendPacketData_framing 0x01020304 [7, 8] (by decide)

/-- C9: a decode abort surfaces as an error carrying the packet type and the cause. For every
packet whose `Unmarshal` panics with an error value `c`, `safeDecode` returns a nil packet and an
error whose message is the packet's type name, then `": "`, then the message of `c`, and which
wraps `c`; and `RecvDirectPacket`, on every 4-path frame with a consistent payload length whose
type id selects a factory that makes this packet and whose payload and shield make this reader,
returns that error with a nil packet and the shield id 0. -/
theorem decode_abort_surfaces_as_error {P : Type} (I : Packet P) (pkt : P) (r : Reader)
    (c : GoError) (h : I.Unmarshal pkt r = .panics (.error c)) :
    ∃ err : GoError,
      (safeDecode I pkt r).outcome = .returns (none, some err) ∧
      err.Error = I.goType pkt ++ ": " ++ c.Error ∧ err.Unwrap = some c ∧
      ∀ (e : Endpoint P) (topic payload : Bytes) (s0 s1 s2 s3 t0 t1 t2 t3 n0 n1 n2 n3 : Byte)
        (f : Unit → P),
        le32 n0 n1 n2 n3 = payload.length → e.pool (le32 t0 t1 t2 t3) = some f → f () = pkt →
        r = ⟨payload, signed32 (le32 s0 s1 s2 s3)⟩ →
        (RecvDirectPacket I e
          (⟨[topic, [s0, s1, s2, s3], [t0, t1, t2, t3], payload, [n0, n1, n2, n3]]⟩,
            none)).outcome = .returns (none, 0, some err) := by
  refine ⟨.wrapError (I.goType pkt ++ ": " ++ c.Error) c, ?_, rfl, rfl, ?_⟩
  · rw [safeDecode_of_error I pkt r c h]
  · intro e topic payload s0 s1 s2 s3 t0 t1 t2 t3 n0 n1 n2 n3 f hlen hkey hf hr
    subst hf hr
    rw [← int32_eq_signed32 _ (le32_lt s0 s1 s2 s3)] at h
    rw [RecvDirectPacket_frames, if_neg (by simpa using hlen), callFactory_of_some _ _ f hkey]
    simp [Run.andThen, Run.emit, Run.ret, NewReader, safeDecode_of_error I _ _ _ h]

theorem decode_abort_surfaces_as_error_witness :
    samplePacket.Unmarshal ⟨[], 0⟩ ⟨[], 1⟩ = .panics (.error (.errorString "unexpected EOF")) ∧
    ∃ err : GoError,
      (safeDecode samplePacket ⟨[], 0⟩ ⟨[], 1⟩).outcome = .returns (none, some err) ∧
      err.Error = "*packet.Sample: unexpected EOF" ∧
      err.Unwrap = some (.errorString "unexpected EOF") ∧
      (RecvDirectPacket samplePacket sampleEndpoint
        (⟨[bytesOf "packet", [1, 0, 0, 0], [9, 0, 0, 0], [], [0, 0, 0, 0]]⟩, none)).outcome
        = .returns (none, 0, some err) := by
  obtain ⟨err, h1, h2, h3, h4⟩ := decode_abort_surfaces_as_error samplePacket ⟨[], 0⟩ ⟨[], 1⟩
    (.errorString "unexpected EOF") (by decide)
  exact ⟨by decide, err, h1, h2, h3,
    h4 sampleEndpoint (bytesOf "packet") [] 1 0 0 0 9 0 0 0 0 0 0 0 (fun _ => ⟨[], 0⟩)
      (by decide) (by decide) rfl (by decide)⟩

/-- C10: channel-read errors are returned directly with no retry. For `RecvPacket` and for
`RecvDirectPacket`, when the receive on the broadcast channel fails with the error `e`, the
operation makes that single receive call and no other call, and returns a nil packet, the shield
id 0 and `e`, whatever message came with the error. -/
theorem Recv_error_returned_directly {P : Type} (I : Packet P)
    (convert : Pool P → Bytes → Outcome (Option P)) (e : Endpoint P) (msg : Msg)
    (err : GoError) :
    RecvPacket convert e (msg, some err) = ⟨[.Recv], .returns (none, 0, some err)⟩ ∧
    RecvDirectPacket I e (msg, some err) = ⟨[.Recv], .returns (none, 0, some err)⟩ := by
  constructor
  · simp [RecvPacket, bind, pure, Run.andThen, Run.emit, Run.ret]
  · simp [RecvDirectPacket, bind, pure, Run.andThen, Run.emit, Run.ret]

end Transfer
